import Mathlib

/-!
Shallow embedding of the gvm version manager core (src/main.rs): version
normalization and parsing, the numeric version comparator, installed-version
enumeration, the activation pointer (the `go` symlink) and the `use` command.

Strings are modelled as `List Char`.  The installation root's `bin` directory
is modelled as an association list from entry names to entries; a symlink
target is a list of path components, so that `Path::file_name` (which yields
nothing for root- or `..`-terminated paths) can be modelled faithfully.
Syscall failures that depend on ambient OS state (permission denial on
`remove_file` / `symlink`) are injected through a `Faults` record; the
`read_dir` failure that `list_installed_versions` turns into a panic is
modelled as an explicit `panicked` result.
-/

/-- The toolchain name prefix `"go"` (main.rs uses the literal `"go"`). -/
def goPfx : List Char := "go".toList

/-- The discriminator `"go1."` used by the directory filter (main.rs:75). -/
def goOnePfx : List Char := "go1.".toList

/-- The name of the activation pointer entry, `bin_dir.join("go")` (main.rs:108, 323). -/
def goLinkName : List Char := "go".toList

/-- `normalize_version` (main.rs:50-56): return the input verbatim when it
already starts with `"go"`, otherwise prepend `"go"`. -/
def normalize_version (version : List Char) : List Char :=
  if goPfx.isPrefixOf version then version else goPfx ++ version

/-- `extract_version_number` (main.rs:58-60): `strip_prefix("go").unwrap_or(version)` —
drop the two prefix characters when the prefix is present, else the input unchanged. -/
def extract_version_number (version : List Char) : List Char :=
  if goPfx.isPrefixOf version then version.drop 2 else version

/-- Rust `str::split('.')` (main.rs:94): maximal runs between dots; the empty
string yields one empty piece, and consecutive dots yield empty pieces. -/
def splitOnDot : List Char → List (List Char)
  | [] => [[]]
  | c :: rest =>
    if c = '.' then [] :: splitOnDot rest
    else
      match splitOnDot rest with
      | [] => [[c]]
      | h :: t => (c :: h) :: t

/-- ASCII digit test for `u32` parsing. -/
def isDigitCh (c : Char) : Bool := '0' ≤ c && c ≤ '9'

/-- Accumulate the value of a digit run; `none` on any non-digit character. -/
def digitsVal : Nat → List Char → Option Nat
  | acc, [] => some acc
  | acc, c :: rest =>
    if isDigitCh c then digitsVal (acc * 10 + (c.toNat - '0'.toNat)) rest else none

/-- Rust `str::parse::<u32>` (main.rs:95-97): an optional leading `'+'`, then one
or more ASCII digits whose value fits in 32 bits; anything else is a parse error. -/
def parse_u32 (s : List Char) : Option Nat :=
  let body :=
    match s with
    | '+' :: rest => rest
    | other => other
  match body with
  | [] => none
  | _ =>
    match digitsVal 0 body with
    | some n => if n < 4294967296 then some n else none
    | none => none

/-- The closure `parse_version` inside `version_compare` (main.rs:93-99): split on
`'.'`, parse the first three pieces as `u32`, defaulting each missing or
unparsable piece to `0`. -/
def parse_version (s : List Char) : Nat × Nat × Nat :=
  let parts := splitOnDot s
  let major := ((parts[0]?).bind parse_u32).getD 0
  let minor := ((parts[1]?).bind parse_u32).getD 0
  let patch := ((parts[2]?).bind parse_u32).getD 0
  (major, minor, patch)

/-- `Nat` comparison, as Rust `Ord::cmp` on `u32`. -/
def cmpNat (a b : Nat) : Ordering :=
  if a < b then Ordering.lt else if a = b then Ordering.eq else Ordering.gt

/-- Rust `Ord::cmp` on `(u32, u32, u32)`: lexicographic. -/
def cmpTriple (x y : Nat × Nat × Nat) : Ordering :=
  (cmpNat x.1 y.1).then ((cmpNat x.2.1 y.2.1).then (cmpNat x.2.2 y.2.2))

/-- `version_compare` (main.rs:92-104): compare the parsed triples. -/
def version_compare (a b : List Char) : Ordering :=
  cmpTriple (parse_version a) (parse_version b)

/-- Strict lexicographic order on numeric triples, stated independently of the
source's comparator, for the consistency clause of the comparator claims. -/
def lexTripleLt (x y : Nat × Nat × Nat) : Prop :=
  x.1 < y.1 ∨ (x.1 = y.1 ∧ (x.2.1 < y.2.1 ∨ (x.2.1 = y.2.1 ∧ x.2.2 < y.2.2)))

instance (x y : Nat × Nat × Nat) : Decidable (lexTripleLt x y) := by
  unfold lexTripleLt; infer_instance

/-- A component of a symlink target path, after Rust `Path` componentization:
the root, a `..` step, or a normal name.  (`Path::file_name` yields `Some`
exactly when the final component is a normal name.) -/
inductive PathComp
  | root
  | parentDir
  | normal (name : List Char)
deriving DecidableEq

/-- Rust `Path::file_name` (main.rs:112-114): the final component when it is a
normal name, `None` for empty, root- or `..`-terminated paths. -/
def fileNameOf (p : List PathComp) : Option (List Char) :=
  match p.getLast? with
  | some (PathComp.normal n) => some n
  | _ => none

/-- An entry of the `bin` directory: a non-symlink file (installed wrapper
binaries), or a symlink with its stored target path. -/
inductive Entry
  | file
  | symlink (target : List PathComp)
deriving DecidableEq

/-- The state of the installation root's `bin` directory: entry names with
their entries.  Names are unique in a real directory; lookups take the first
match. -/
abbrev DirState := List (List Char × Entry)

/-- Look up a directory entry by name. -/
def lookupEntry : DirState → List Char → Option Entry
  | [], _ => none
  | (k, e) :: rest, n => if k = n then some e else lookupEntry rest n

/-- Rust `fs::remove_file` effect on the directory: drop the named entry.
(Directory entry names are unique, so dropping every pair with that name is
the same as dropping the one entry.) -/
def removeEntry (s : DirState) (n : List Char) : DirState :=
  s.filter (fun kv => kv.1 ≠ n)

/-- `Path::is_symlink` on a `bin` entry (main.rs:110, 340). -/
def isSymlinkEntry (s : DirState) (n : List Char) : Bool :=
  match lookupEntry s n with
  | some (Entry.symlink _) => true
  | _ => false

/-- `get_current_version` (main.rs:106-119): when the `go` entry is a symlink,
read its target (readlink on an existing symlink succeeds) and return the
target's final path component; otherwise `None`. -/
def get_current_version (s : DirState) : Option (List Char) :=
  match lookupEntry s goLinkName with
  | some (Entry.symlink target) => fileNameOf target
  | _ => none

/-- The directory filter of `list_installed_versions`, kept verbatim from
main.rs:75: `file_name.starts_with("go1.") && !file_name.contains('.') == false`
(`!` binds before `==`, so the second conjunct demands a dot in the name). -/
def entryMatches (n : List Char) : Bool :=
  goOnePfx.isPrefixOf n && ((!(n.contains '.')) == false)

/-- The sort comparator of main.rs:83-87 turned into the `le` relation Rust's
stable `sort_by` orders by: `a` may precede `b` iff comparing the extracted
version numbers does not say Greater. -/
def vcLe (a b : List Char) : Bool :=
  version_compare (extract_version_number a) (extract_version_number b) != Ordering.gt

/-- The pure part of `list_installed_versions` (main.rs:69-89) applied to the
names read from the directory: filter, then stable sort by `version_compare`
over the extracted version numbers. -/
def list_core (entries : List (List Char)) : List (List Char) :=
  (entries.filter entryMatches).mergeSort vcLe

/-- Result of `list_installed_versions`: a version list, or the process abort
from the `panic!` on a failed `read_dir` (main.rs:70). -/
inductive ListResult
  | ok (versions : List (List Char))
  | panicked
deriving DecidableEq

/-- `list_installed_versions` (main.rs:62-90).  `binDirOnDisk` is whether
`bin_dir.exists()`; `readDirRes` is `some` of the entry names when `read_dir`
succeeds (entries that error inside the iterator are skipped by `entry.ok()?`,
so only readable names appear), `none` when `read_dir` itself fails, which the
source turns into a panic. -/
def list_installed_versions (binDirOnDisk : Bool)
    (readDirRes : Option (List (List Char))) : ListResult :=
  if !binDirOnDisk then ListResult.ok []
  else
    match readDirRes with
    | none => ListResult.panicked
    | some entries => ListResult.ok (list_core entries)

/-- Ambient-OS failure injection for the two mutating syscalls of `cmd_use`:
`remove_file` denied (e.g. EACCES), `symlink` denied for a reason other than
the link name being occupied. -/
structure Faults where
  removeDenied : Bool
  symlinkDenied : Bool
deriving DecidableEq

/-- The fault-free OS environment. -/
def noFaults : Faults := Faults.mk false false

/-- Outcome of one `cmd_use` invocation, from its four `println!`/`eprintln!`
terminations: the not-installed refusal (main.rs:326-337), the failed removal
of the old `go` entry (main.rs:341-348), the failed symlink creation
(main.rs:368-374), and success (main.rs:353-366). -/
inductive UseOutcome
  | notInstalled (versionNum : List Char)
  | removeFailed
  | linkFailed
  | success (versionNum : List Char)
deriving DecidableEq

/-- The activation part of `cmd_use` (main.rs:339-375), after the presence
check: remove any existing `go` entry (file or symlink), then create the
symlink `go -> bin_dir/normalized`.  POSIX `symlink(2)` does not inspect the
target, it fails only when the link name is occupied or the OS denies it. -/
def cmd_use_activate (binDir : List PathComp) (f : Faults) (s : DirState)
    (normalized : List Char) : DirState × UseOutcome :=
  let present := (lookupEntry s goLinkName).isSome
  if present && f.removeDenied then (s, UseOutcome.removeFailed)
  else
    let s1 := if present then removeEntry s goLinkName else s
    if f.symlinkDenied || (lookupEntry s1 goLinkName).isSome then (s1, UseOutcome.linkFailed)
    else ((goLinkName, Entry.symlink (binDir ++ [PathComp.normal normalized])) :: s1,
      UseOutcome.success (extract_version_number normalized))

/-- `cmd_use` (main.rs:317-376): normalize, refuse when the wrapper entry for
the normalized name is absent, otherwise activate. -/
def cmd_use (binDir : List PathComp) (f : Faults) (s : DirState)
    (version : List Char) : DirState × UseOutcome :=
  let normalized := normalize_version version
  if (lookupEntry s normalized).isNone then
    (s, UseOutcome.notInstalled (extract_version_number normalized))
  else cmd_use_activate binDir f s normalized

-- Basic facts about the comparator, shared by several developments below.

theorem cmpNat_lt {a b : Nat} : cmpNat a b = Ordering.lt ↔ a < b := by
  unfold cmpNat; split <;> simp_all <;> omega

theorem cmpNat_eq {a b : Nat} : cmpNat a b = Ordering.eq ↔ a = b := by
  unfold cmpNat; split <;> simp_all <;> omega

theorem cmpNat_gt {a b : Nat} : cmpNat a b = Ordering.gt ↔ b < a := by
  unfold cmpNat; split
  · simp_all; omega
  · split <;> simp_all <;> omega

theorem cmpTriple_eq {x y : Nat × Nat × Nat} : cmpTriple x y = Ordering.eq ↔ x = y := by
  obtain ⟨x1, x2, x3⟩ := x
  obtain ⟨y1, y2, y3⟩ := y
  simp only [cmpTriple, Ordering.then_eq_eq, cmpNat_eq, Prod.mk.injEq]

theorem cmpTriple_lt {x y : Nat × Nat × Nat} : cmpTriple x y = Ordering.lt ↔ lexTripleLt x y := by
  obtain ⟨x1, x2, x3⟩ := x
  obtain ⟨y1, y2, y3⟩ := y
  simp only [cmpTriple, Ordering.then_eq_lt, cmpNat_lt, cmpNat_eq, lexTripleLt]

theorem cmpTriple_gt {x y : Nat × Nat × Nat} : cmpTriple x y = Ordering.gt ↔ lexTripleLt y x := by
  obtain ⟨x1, x2, x3⟩ := x
  obtain ⟨y1, y2, y3⟩ := y
  simp only [cmpTriple, Ordering.then_eq_gt, cmpNat_gt, cmpNat_eq, lexTripleLt]
  omega

theorem lexTripleLt_trans {x y z : Nat × Nat × Nat}
    (h1 : lexTripleLt x y) (h2 : lexTripleLt y z) : lexTripleLt x z := by
  obtain ⟨x1, x2, x3⟩ := x
  obtain ⟨y1, y2, y3⟩ := y
  obtain ⟨z1, z2, z3⟩ := z
  simp only [lexTripleLt] at h1 h2 ⊢
  omega

theorem lexTripleLt_asymm {x y : Nat × Nat × Nat}
    (h : lexTripleLt x y) : ¬ lexTripleLt y x := by
  obtain ⟨x1, x2, x3⟩ := x
  obtain ⟨y1, y2, y3⟩ := y
  simp only [lexTripleLt] at h ⊢
  omega

theorem lexTripleLt_total (x y : Nat × Nat × Nat) :
    lexTripleLt x y ∨ x = y ∨ lexTripleLt y x := by
  obtain ⟨x1, x2, x3⟩ := x
  obtain ⟨y1, y2, y3⟩ := y
  simp only [lexTripleLt, Prod.mk.injEq]
  omega

-- Shared helper lemmas about the string-level operations.

theorem goPfx_isPrefixOf_append (s : List Char) : goPfx.isPrefixOf (goPfx ++ s) = true := by
  simp [ List.isPrefixOf_iff_prefix]

theorem extract_append (s : List Char) : extract_version_number (goPfx ++ s) = s := by
  unfold extract_version_number
  rw [goPfx_isPrefixOf_append]
  simp only [if_true]
  exact List.drop_left' (by decide)

theorem extract_normalize (s : List Char) :
    extract_version_number (normalize_version s) = extract_version_number s := by
  unfold normalize_version
  by_cases h : goPfx.isPrefixOf s
  · rw [if_pos h]
  · rw [if_neg h, extract_append]
    unfold extract_version_number
    rw [if_neg h]

theorem normalize_version_idem (s : List Char) :
    normalize_version (normalize_version s) = normalize_version s := by
  unfold normalize_version
  by_cases h : goPfx.isPrefixOf s
  · rw [if_pos h, if_pos h]
  · rw [if_neg h, if_pos (goPfx_isPrefixOf_append s)]

theorem lookup_removeEntry_self (s : DirState) (n : List Char) :
    lookupEntry (removeEntry s n) n = none := by
  induction s with
  | nil => rfl
  | cons kv rest ih =>
    by_cases hk : kv.1 = n
    · simpa [removeEntry, List.filter_cons, hk] using ih
    · simpa [removeEntry, List.filter_cons, hk, lookupEntry] using ih

/-- C4: `parse_version` (the spec's `parseTriple`) is total: it splits on `'.'`,
parses each of the first three pieces as an unsigned integer, and substitutes
`0` for any missing or unparsable piece; in particular a missing minor or patch
component is `0`, a piece that fails the `u32` parse contributes `0`, `"1.22"`
parses to `(1, 22, 0)` and `"1.22rc1"` parses to `(1, 0, 0)`. -/
theorem parse_version_total_defaults_c4 :
    (∀ s : List Char, (splitOnDot s).length ≤ 2 → (parse_version s).2.2 = 0)
    ∧ (∀ s : List Char, (splitOnDot s).length ≤ 1 → (parse_version s).2.1 = 0)
    ∧ (∀ s p, (splitOnDot s)[0]? = some p → parse_u32 p = none → (parse_version s).1 = 0)
    ∧ (∀ s p, (splitOnDot s)[1]? = some p → parse_u32 p = none → (parse_version s).2.1 = 0)
    ∧ (∀ s p, (splitOnDot s)[2]? = some p → parse_u32 p = none → (parse_version s).2.2 = 0)
    ∧ parse_version ("1.22".toList) = (1, 22, 0)
    ∧ parse_version ("1.22rc1".toList) = (1, 0, 0) := by
  refine ⟨?_, ?_, ?_, ?_, ?_, by decide, by decide⟩
  · intro s h
    simp [parse_version, List.getElem?_eq_none h]
  · intro s h
    simp [parse_version, List.getElem?_eq_none h]
  · intro s p h hp
    simp [parse_version, h, hp]
  · intro s p h hp
    simp [parse_version, h, hp]
  · intro s p h hp
    simp [parse_version, h, hp]

/-- C4 witness: concrete instances discharging the hypotheses of
`parse_version_total_defaults_c4`. -/
theorem parse_version_total_defaults_c4_wit :
    (parse_version ("1.22".toList)).2.2 = 0 ∧ (parse_version ("1.22rc1".toList)).2.1 = 0 :=
  ⟨parse_version_total_defaults_c4.1 ("1.22".toList) (by decide),
   parse_version_total_defaults_c4.2.2.2.1 ("1.22rc1".toList) ("22rc1".toList)
     (by decide) (by decide)⟩

/-- C5: `version_compare` behaves as a strict total order on version strings:
it is antisymmetric (swapping the arguments swaps Less and Greater), it is
Equal exactly on equal parsed triples, it is transitive, it agrees with the
strict lexicographic order on the parsed `(major, minor, patch)` triples (so it
is never lexicographic on the raw string), and `"1.9.0"` compares Less than
`"1.10.0"`. -/
theorem version_compare_total_order_c5 :
    (∀ a b : List Char, version_compare a b = Ordering.lt ↔ version_compare b a = Ordering.gt)
    ∧ (∀ a b : List Char, version_compare a b = Ordering.eq ↔ parse_version a = parse_version b)
    ∧ (∀ a b c : List Char, version_compare a b = Ordering.lt →
        version_compare b c = Ordering.lt → version_compare a c = Ordering.lt)
    ∧ (∀ a b : List Char, version_compare a b = Ordering.lt ↔
        lexTripleLt (parse_version a) (parse_version b))
    ∧ version_compare ("1.9.0".toList) ("1.10.0".toList) = Ordering.lt := by
  refine ⟨?_, ?_, ?_, ?_, by decide⟩
  · intro a b
    rw [version_compare, version_compare, cmpTriple_lt, cmpTriple_gt]
  · intro a b
    rw [version_compare, cmpTriple_eq]
  · intro a b c h1 h2
    rw [version_compare, cmpTriple_lt] at h1 h2 ⊢
    exact lexTripleLt_trans h1 h2
  · intro a b
    rw [version_compare, cmpTriple_lt]

/-- C5 witness: transitivity of `version_compare` applied at concrete strings. -/
theorem version_compare_total_order_c5_wit :
    version_compare ("1.9.0".toList) ("1.21.5".toList) = Ordering.lt :=
  version_compare_total_order_c5.2.2.1 ("1.9.0".toList) ("1.10.0".toList) ("1.21.5".toList)
    (by decide) (by decide)

/-- C6: for every string `s`, normalizing (applying the `"go"` prefix when
absent) and then stripping the prefix yields the same parsed triple as
stripping the prefix of `s` directly — in particular this holds for every
well-formed dotted-triple string. -/
theorem normalize_round_trip_c6 (s : List Char) :
    parse_version (extract_version_number (normalize_version s)) =
      parse_version (extract_version_number s) := by
  rw [extract_normalize]

/-- C8: when the installation root's `bin` directory does not exist,
`list_installed_versions` returns the empty list, never an error, regardless
of what reading the directory would have produced. -/
theorem list_installed_no_dir_c8 (r : Option (List (List Char))) :
    list_installed_versions false r = ListResult.ok [] := rfl

/-- C9 counterexample: the enumeration is not failure-free on every filesystem
state — when the `bin` directory exists but reading it fails, the source
panics (`unwrap_or_else(|_| panic!(...))`, main.rs:70), aborting the process. -/
theorem list_installed_panics_cex_c9 :
    list_installed_versions true none = ListResult.panicked := rfl

/-- C9 amended: registry enumeration degrades gracefully (never panics) except
in exactly one situation: the `bin` directory exists and `read_dir` fails, in
which case the process aborts.  Version normalization, extraction, parsing and
comparison are total functions with no failure outcome at all. -/
theorem list_installed_panic_iff_c9 (d : Bool) (r : Option (List (List Char))) :
    list_installed_versions d r = ListResult.panicked ↔ d = true ∧ r = none := by
  cases d <;> cases r <;> simp [list_installed_versions]

/-- C1: whenever a `use` invocation succeeds (the new symlink was created),
a subsequent `get_current_version` returns the requested version's canonical
name: the link's target's final path component is `normalize_version v`, and
normalizing it again is the identity, so it denotes the same VersionId as `v`. -/
theorem use_success_current_c1 (binDir : List PathComp) (f : Faults) (s : DirState)
    (v : List Char) (s' : DirState) (n : List Char)
    (h : cmd_use binDir f s v = (s', UseOutcome.success n)) :
    get_current_version s' = some (normalize_version v)
      ∧ normalize_version (normalize_version v) = normalize_version v := by
  refine ⟨?_, normalize_version_idem v⟩
  simp only [cmd_use] at h
  split at h
  · simp at h
  · simp only [cmd_use_activate] at h
    split at h
    · simp at h
    · split at h
      all_goals split at h
      all_goals simp at h
      all_goals
        obtain ⟨hs, -⟩ := h
        subst hs
        simp [get_current_version, lookupEntry, fileNameOf, List.getLast?_concat]

/-- C1 witness: a concrete successful activation followed by the current-version
query. -/
theorem use_success_current_c1_wit :
    get_current_version
        (cmd_use [PathComp.root, PathComp.normal ("bin".toList)] noFaults
          [(("go1.22.11".toList), Entry.file)] ("1.22.11".toList)).1
      = some (normalize_version ("1.22.11".toList))
      ∧ normalize_version (normalize_version ("1.22.11".toList))
        = normalize_version ("1.22.11".toList) :=
  use_success_current_c1 [PathComp.root, PathComp.normal ("bin".toList)] noFaults
    [(("go1.22.11".toList), Entry.file)] ("1.22.11".toList)
    (cmd_use [PathComp.root, PathComp.normal ("bin".toList)] noFaults
      [(("go1.22.11".toList), Entry.file)] ("1.22.11".toList)).1
    ("1.22.11".toList) (by decide)

/-- C2: when the requested version's wrapper entry is absent, `cmd_use` refuses
to activate: it returns the not-installed outcome naming the version's number
(a terminal outcome of the invocation, not a crash) and the directory state —
in particular the `go` activation pointer — is returned completely unchanged. -/
theorem use_refuses_not_installed_c2 (binDir : List PathComp) (f : Faults) (s : DirState)
    (v : List Char) (h : lookupEntry s (normalize_version v) = none) :
    cmd_use binDir f s v
      = (s, UseOutcome.notInstalled (extract_version_number (normalize_version v))) := by
  simp [cmd_use, h]

/-- C2 witness: using a version on an empty directory refuses and mutates
nothing. -/
theorem use_refuses_not_installed_c2_wit :
    cmd_use [PathComp.root, PathComp.normal ("bin".toList)] noFaults [] ("1.21.0".toList)
      = ([], UseOutcome.notInstalled
          (extract_version_number (normalize_version ("1.21.0".toList)))) :=
  use_refuses_not_installed_c2 [PathComp.root, PathComp.normal ("bin".toList)] noFaults []
    ("1.21.0".toList) (by decide)

/-- C3 counterexample: simulate the race — `go1.22.11` is present at the
presence check, then removed before the activation step runs.  Activation on
the post-removal state reports success (POSIX `symlink` does not inspect its
target), not a link-creation failure as the claim states. -/
theorem activate_race_succeeds_cex_c3 :
    (lookupEntry [(("go1.22.11".toList), Entry.file)]
        (normalize_version ("1.22.11".toList))).isSome = true
    ∧ lookupEntry [] (normalize_version ("1.22.11".toList)) = none
    ∧ (cmd_use_activate [PathComp.root, PathComp.normal ("bin".toList)] noFaults []
        (normalize_version ("1.22.11".toList))).2
      = UseOutcome.success ("1.22.11".toList) := by
  decide

/-- C3 amended: activation on a version whose entry has since been removed does
not crash and does not fail — it succeeds, installing the `go` symlink to the
now-absent target (a dangling link), because symlink creation never inspects
the target.  The error outcomes are exactly the syscall ones: the removal
outcome surfaces when an existing `go` entry cannot be removed, and the
link-creation outcome when the symlink syscall itself is denied. -/
theorem activate_race_amended_c3 (binDir : List PathComp) (s : DirState) (nz : List Char)
    (hgone : lookupEntry s nz = none) :
    ((cmd_use_activate binDir noFaults s nz).2 = UseOutcome.success (extract_version_number nz)
      ∧ lookupEntry (cmd_use_activate binDir noFaults s nz).1 goLinkName
          = some (Entry.symlink (binDir ++ [PathComp.normal nz])))
    ∧ ((lookupEntry s goLinkName).isSome = true →
        cmd_use_activate binDir (Faults.mk true false) s nz = (s, UseOutcome.removeFailed))
    ∧ ((lookupEntry s goLinkName).isSome = false →
        cmd_use_activate binDir (Faults.mk false true) s nz = (s, UseOutcome.linkFailed)) := by
  refine ⟨?_, ?_, ?_⟩
  · cases hpres : (lookupEntry s goLinkName).isSome <;>
      simp_all [cmd_use_activate, noFaults, lookup_removeEntry_self, lookupEntry]
  · intro hp
    simp [cmd_use_activate, hp]
  · intro hp
    simp [cmd_use_activate, hp]

/-- C3 witness: the amended statement applied at concrete states — the race
state (entry removed, activation succeeds), a denied removal, and a denied
symlink creation. -/
theorem activate_race_amended_c3_wit :
    (cmd_use_activate [PathComp.root, PathComp.normal ("bin".toList)] noFaults []
        ("go1.22.11".toList)).2
      = UseOutcome.success (extract_version_number ("go1.22.11".toList))
    ∧ cmd_use_activate [PathComp.root, PathComp.normal ("bin".toList)] (Faults.mk true false)
        [(("go".toList), Entry.file)] ("go1.22.11".toList)
      = ([(("go".toList), Entry.file)], UseOutcome.removeFailed)
    ∧ cmd_use_activate [PathComp.root, PathComp.normal ("bin".toList)] (Faults.mk false true)
        [] ("go1.22.11".toList)
      = ([], UseOutcome.linkFailed) :=
  ⟨(activate_race_amended_c3 [PathComp.root, PathComp.normal ("bin".toList)] []
      ("go1.22.11".toList) (by decide)).1.1,
   (activate_race_amended_c3 [PathComp.root, PathComp.normal ("bin".toList)]
      [(("go".toList), Entry.file)] ("go1.22.11".toList) (by decide)).2.1 (by decide),
   (activate_race_amended_c3 [PathComp.root, PathComp.normal ("bin".toList)] []
      ("go1.22.11".toList) (by decide)).2.2 (by decide)⟩

/-- C10 counterexample: a `go` entry that is a symlink whose target has no
final normal component (here the filesystem root `/`).  The entry is a
symlink, yet `get_current_version` returns `none` — so "returns `None`
exactly when the entry is absent or not a symlink" is false. -/
theorem current_symlink_none_cex_c10 :
    isSymlinkEntry [(("go".toList), Entry.symlink [PathComp.root])] ("go".toList) = true
    ∧ get_current_version [(("go".toList), Entry.symlink [PathComp.root])] = none := by
  decide

/-- C10 amended: `get_current_version` validates nothing about the target:
whenever the `go` entry is a symlink whose target path has a final normal
component, it returns that component verbatim — no hypothesis requires the
target to exist in the directory or to be a versioned entry name.  It returns
`none` when the `go` entry is absent, when it is not a symlink, and also when
it is a symlink whose target has no final normal component. -/
theorem current_no_validation_c10 (s : DirState) (t : List PathComp) (n : List Char) :
    (lookupEntry s goLinkName = some (Entry.symlink t) → fileNameOf t = some n →
      get_current_version s = some n)
    ∧ (lookupEntry s goLinkName = none → get_current_version s = none)
    ∧ (lookupEntry s goLinkName = some Entry.file → get_current_version s = none)
    ∧ (lookupEntry s goLinkName = some (Entry.symlink t) → fileNameOf t = none →
      get_current_version s = none) := by
  refine ⟨?_, ?_, ?_, ?_⟩ <;> intro h1 <;>
    first
      | simp [get_current_version, h1]
      | (intro h2; simp [get_current_version, h1, h2])

/-- C10 witness: a dangling symlink to a non-versioned name is still reported
verbatim, and a regular-file `go` entry yields `none`. -/
theorem current_no_validation_c10_wit :
    get_current_version
        [(("go".toList), Entry.symlink [PathComp.root, PathComp.normal ("missing".toList)])]
      = some ("missing".toList)
    ∧ get_current_version [(("go".toList), Entry.file)] = none :=
  ⟨(current_no_validation_c10
      [(("go".toList), Entry.symlink [PathComp.root, PathComp.normal ("missing".toList)])]
      [PathComp.root, PathComp.normal ("missing".toList)] ("missing".toList)).1
      (by decide) (by decide),
   (current_no_validation_c10 [(("go".toList), Entry.file)] [] []).2.2.1 (by decide)⟩

-- Helper lemmas for the directory filter and the sort relation.

theorem entryMatches_eq (n : List Char) : entryMatches n = goOnePfx.isPrefixOf n := by
  unfold entryMatches
  cases hpre : goOnePfx.isPrefixOf n with
  | false => rfl
  | true =>
    obtain ⟨t, ht⟩ := List.isPrefixOf_iff_prefix.mp hpre
    subst ht
    have hc : ('.' ∈ goOnePfx ++ t) := List.mem_append_left t (by decide)
    simp [List.contains, hc]

theorem vcLe_iff {a b : List Char} :
    vcLe a b = true ↔
      ¬ lexTripleLt (parse_version (extract_version_number b))
        (parse_version (extract_version_number a)) := by
  have hgt : version_compare (extract_version_number a) (extract_version_number b)
        = Ordering.gt ↔
      lexTripleLt (parse_version (extract_version_number b))
        (parse_version (extract_version_number a)) := cmpTriple_gt
  unfold vcLe
  rw [← hgt]
  generalize version_compare (extract_version_number a) (extract_version_number b) = x
  cases x <;> decide

theorem vcLe_trans {a b c : List Char} (h1 : vcLe a b = true) (h2 : vcLe b c = true) :
    vcLe a c = true := by
  rw [vcLe_iff] at h1 h2 ⊢
  intro hlt
  rcases lexTripleLt_total (parse_version (extract_version_number a))
      (parse_version (extract_version_number b)) with hab | hab | hab
  · exact h2 (lexTripleLt_trans hlt hab)
  · exact h2 (hab ▸ hlt)
  · exact h1 hab

theorem vcLe_total (a b : List Char) : (vcLe a b || vcLe b a) = true := by
  rw [Bool.or_eq_true, vcLe_iff, vcLe_iff]
  by_cases h : lexTripleLt (parse_version (extract_version_number b))
      (parse_version (extract_version_number a))
  · exact Or.inr (lexTripleLt_asymm h)
  · exact Or.inl h

/-- C7: `list_installed_versions` keeps exactly the entries whose name starts
with `"go1."` (a permutation of that filter of the raw entries — the weird
double-negated second conjunct of the source filter is implied by the prefix),
every returned name starts with `"go1."`, the reserved pointer name `"go"` is
never in the result even when the entry is present, and the result is sorted
ascending under the numeric version comparison. -/
theorem list_installed_filter_sorted_c7 (entries : List (List Char)) :
    (list_core entries).Perm (entries.filter (fun n => goOnePfx.isPrefixOf n))
    ∧ (list_core entries).all (fun n => goOnePfx.isPrefixOf n) = true
    ∧ (list_core entries).contains goLinkName = false
    ∧ (list_core entries).Pairwise (fun a b => vcLe a b = true) := by
  have hperm : (list_core entries).Perm (entries.filter entryMatches) :=
    List.mergeSort_perm _ _
  have hfe : entries.filter entryMatches = entries.filter (fun n => goOnePfx.isPrefixOf n) :=
    List.filter_congr (fun n _ => entryMatches_eq n)
  have hmem : ∀ x ∈ list_core entries, goOnePfx.isPrefixOf x = true := by
    intro x hx
    have h1 := List.of_mem_filter (hperm.mem_iff.mp hx)
    rwa [entryMatches_eq] at h1
  refine ⟨hfe ▸ hperm, ?_, ?_, ?_⟩
  · rw [List.all_eq_true]
    exact hmem
  · have hnot : goLinkName ∉ list_core entries := by
      intro hmemGo
      exact absurd (hmem _ hmemGo) (by decide)
    simpa [List.contains] using hnot
  · have hs := @List.sorted_mergeSort (List Char) vcLe
      (fun a b c h1 h2 => vcLe_trans h1 h2) vcLe_total (entries.filter entryMatches)
    simpa [list_core] using hs
